import Mathlib

set_option autoImplicit false

namespace WbMcuFwUpdater

/-! Shallow embedding of wb-mcu-fw-updater / wb_modbus.

Sources embedded here:
  src/wb_modbus/__init__.py        (allowed UART parameter tables)
  src/wb_modbus/bindings.py        (WBModbusDeviceBase methods)
  src/wb_mcu_fw_updater/jsondb.py  (FixedLengthList, JsonDB)
  src/wb_mcu_fw_updater/fw_flasher.py (ModbusInBlFlasher)
  src/wb_mcu_fw_updater/update_monitor.py (is_reflash_necessary)
Python machine-independent values (ints, strings, lists, dicts) are mapped
to Nat / String / List / structures; raised exceptions become explicit
outcome values threaded through the control flow. -/

/-! ## Serial settings (wb_modbus) -/

/-- Serial port settings dict of MinimalModbusAPIWrapper: keys baudrate,
parity, stopbits (src/wb_modbus/bindings.py, set_port_settings). -/
structure UartSettings where
  baudrate : Nat
  parity : Char
  stopbits : Nat
deriving DecidableEq

/-- ALLOWED_BAUDRATES from src/wb_modbus/__init__.py (9600 and 115200 first,
then the rest ascending). -/
def ALLOWED_BAUDRATES : List Nat := [9600, 115200, 1200, 2400, 4800, 19200, 38400, 57600]

/-- Keys of ALLOWED_PARITIES (an OrderedDict) from src/wb_modbus/__init__.py. -/
def ALLOWED_PARITIES : List Char := ['N', 'O', 'E']

/-- ALLOWED_STOPBITS from src/wb_modbus/__init__.py. -/
def ALLOWED_STOPBITS : List Nat := [2, 1]

/-- itertools.product(ALLOWED_BAUDRATES, allowed_parities, ALLOWED_STOPBITS)
as iterated in find_uart_settings: rightmost factor varies fastest. -/
def uartProduct : List UartSettings :=
  (ALLOWED_BAUDRATES.map (fun b =>
    (ALLOWED_PARITIES.map (fun p =>
      ALLOWED_STOPBITS.map (fun s => UartSettings.mk b p s))).flatten)).flatten

/-! ## Exceptions

The control flow of bindings.py distinguishes exception classes of the
vendored minimalmodbus module, which is part of the repository but absent
from src/. -/

/-- Modelled from the spec: the exception taxonomy of the vendored
minimalmodbus module (src/wb_modbus/minimalmodbus.py is not in src/).
Spec section 4.1 lists, as distinct transport failure modes,
NoResponseError (timeout), IllegalRequestError (Modbus exception 01/02/03)
and SlaveReportedException (Modbus exception 04 and other slave-device
errors); ValueError is a plain Python error, not a ModbusException.
TooOldDeviceError is declared in src/wb_modbus/bindings.py (lines 12-15)
as a subclass of minimalmodbus.ModbusException. -/
inductive MbExc where
  | noResponse
  | slaveReported
  | illegalRequest
  | tooOldDevice
  | valueError
deriving DecidableEq

/-- Modelled from the spec: which exception classes an
"except minimalmodbus.ModbusException" clause catches. All Modbus failure
kinds of spec section 7 are ModbusException subclasses; ValueError is not.
TooOldDeviceError subclasses ModbusException per src/wb_modbus/bindings.py. -/
def isModbusException : MbExc → Bool
  | MbExc.valueError => false
  | _ => true

/-- Outcome of one Modbus call (a read or a write), after the retry wrapper
has given up: either a normal return or a raised exception. -/
inductive CallOutcome where
  | ok
  | exc (e : MbExc)
deriving DecidableEq

/-- A Python function return value that can be True, False or the implicit
None (a fall-through return). -/
inductive PyRet where
  | pyTrue
  | pyFalse
  | pyNone
deriving DecidableEq

/-- One write_u16_regs request: first register address and the u16 values. -/
structure WriteReq where
  addr : Nat
  values : List Nat
deriving DecidableEq

/-- Port state carried by a WBModbusDeviceBase: the serial settings dict and
the response timeout (seconds, kept exact as a rational). -/
structure PortState where
  settings : UartSettings
  timeout : ℚ
deriving DecidableEq

/-! ## WBModbusDeviceBase.find_uart_settings (src/wb_modbus/bindings.py 515-539) -/

/-- The for-loop of find_uart_settings. Each iteration first runs the probe
under the port settings applied at that moment (`current`); on success the
initial settings are written back to the port and the settings the probe ran
under are returned; on IOError the iteration's product element is applied
and the loop continues. Exhausting the product raises
UARTSettingsNotFoundError (the `none` result), leaving the port on the last
applied element. Result: (returned settings or none, settings left on the
port). -/
def find_uart_settings_go (probe : UartSettings → Bool) (initial : UartSettings) :
    UartSettings → List UartSettings → Option UartSettings × UartSettings
  | current, [] => (none, current)
  | current, c :: rest =>
    if probe current then (some current, initial)
    else find_uart_settings_go probe initial c rest

/-- WBModbusDeviceBase.find_uart_settings: iterate
product(ALLOWED_BAUDRATES, parities, ALLOWED_STOPBITS) around the probe
callable, starting from the settings currently applied on the instrument. -/
def find_uart_settings (initial : UartSettings) (probe : UartSettings → Bool) :
    Option UartSettings × UartSettings :=
  find_uart_settings_go probe initial initial uartProduct

/-! ## WBModbusDeviceBase.get_serial_number (src/wb_modbus/bindings.py 541-557) -/

/-- Does the compiled regex WBMAP_MARKER (raw pattern: backslash-S star,
MAP, backslash-d plus, backslash-S star; src/wb_modbus/__init__.py line 20)
match at the start of the string, re.match style: some position i starts
with "MAP" followed by at least one digit, and every character before i is
non-whitespace. The trailing non-whitespace star always matches. -/
def wbmapStartsHere : List Char → Bool
  | 'M' :: 'A' :: 'P' :: d :: _ => d.isDigit
  | _ => false

/-- WBMAP_MARKER.match(device_signature) as a Bool. -/
def wbmapMatch : List Char → Bool
  | [] => false
  | c :: rest => wbmapStartsHere (c :: rest) || (!c.isWhitespace && wbmapMatch rest)

/-- WBModbusDeviceBase.get_serial_number. The two possible device reads are
passed in: `input0`, `input1` are the two u16 input registers at address 270
(used by the WB-MAP branch, _get_serial_number_map) and `holding_u32` is the
u32 big-endian holding read at address 270 (used otherwise). -/
def get_serial_number (device_signature : List Char) (input0 input1 : Nat)
    (holding_u32 : Nat) : Nat :=
  if wbmapMatch device_signature then ((input0 % 256) * 65536) + input1
  else holding_u32

/-! ## WBModbusDeviceBase.reboot_to_bootloader (src/wb_modbus/bindings.py 699-716) -/

/-- The closing try/except of reboot_to_bootloader: the try block runs
get_slave_addr and, when that read succeeds, executes
"raise TooOldDeviceError"; the whole block is guarded by
"except minimalmodbus.ModbusException: pass". The raised exception is the
read's own exception or the explicit TooOldDeviceError; it propagates out
of the function only when it is not a ModbusException. -/
def reboot_verify (secondRead : CallOutcome) : Option MbExc :=
  let raised : MbExc :=
    match secondRead with
    | CallOutcome.ok => MbExc.tooOldDevice
    | CallOutcome.exc e => e
  if isModbusException raised then none else some raised

/-- WBModbusDeviceBase.reboot_to_bootloader. `firstRead` is the initial
get_slave_addr (connection check), `writeResult` the write of 1 to register
129 (reboot_to_bootloader register), `secondRead` the get_slave_addr issued
after the 0.5 s sleep. Returns the exception that propagates to the caller,
or none for a normal return. The write tolerates any ModbusException
(device reboots without replying); the sleep happens in a finally block. -/
def reboot_to_bootloader (firstRead writeResult secondRead : CallOutcome) : Option MbExc :=
  match firstRead with
  | CallOutcome.exc e => some e
  | CallOutcome.ok =>
    match writeResult with
    | CallOutcome.ok => reboot_verify secondRead
    | CallOutcome.exc e =>
      if isModbusException e then reboot_verify secondRead else some e

/-! ## WBModbusDeviceBase.is_in_bootloader (src/wb_modbus/bindings.py 718-760) -/

/-- WBModbusDeviceBase._has_bootloader_answered: save the port settings and
response timeout, switch to (baudrate, N, 2) and timeout + 1.0
(BOOTLOADER_INFOBLOCK_MAGIC_TIMEOUT), write the dummy payload of 16 zero
u16 registers to 0x1000, return True on SlaveReportedException (Modbus
error 04), False on any other ModbusException, fall through (None) when the
write succeeds; the finally block restores settings and timeout on every
path, including a propagating non-Modbus exception. -/
def _has_bootloader_answered (st : PortState) (baudrate : Nat)
    (probeWrite : PortState → WriteReq → CallOutcome) : Except MbExc PyRet × PortState :=
  let probe_state : PortState := ⟨⟨baudrate, 'N', 2⟩, st.timeout + 1⟩
  let dummy_payload : WriteReq := ⟨0x1000, List.replicate 16 0⟩
  match probeWrite probe_state dummy_payload with
  | CallOutcome.exc MbExc.slaveReported => (Except.ok PyRet.pyTrue, st)
  | CallOutcome.exc e =>
    if isModbusException e then (Except.ok PyRet.pyFalse, st)
    else (Except.error e, st)
  | CallOutcome.ok => (Except.ok PyRet.pyNone, st)

/-- WBModbusDeviceBase.is_in_bootloader: a successful get_slave_addr means
normal mode (False); on ModbusException the bootloader probe decides. -/
def is_in_bootloader (st : PortState) (baudrate : Nat)
    (readSlaveId : PortState → CallOutcome)
    (probeWrite : PortState → WriteReq → CallOutcome) : Except MbExc PyRet × PortState :=
  match readSlaveId st with
  | CallOutcome.ok => (Except.ok PyRet.pyFalse, st)
  | CallOutcome.exc e =>
    if isModbusException e then _has_bootloader_answered st baudrate probeWrite
    else (Except.error e, st)

/-! ## ModbusInBlFlasher (src/wb_mcu_fw_updater/fw_flasher.py) -/

/-- ModbusInBlFlasher.INFO_BLOCK_START. -/
def INFO_BLOCK_START : Nat := 0x1000

/-- ModbusInBlFlasher.INFO_BLOCK_LENGTH. -/
def INFO_BLOCK_LENGTH : Nat := 16

/-- ModbusInBlFlasher.DATA_BLOCK_START. -/
def DATA_BLOCK_START : Nat := 0x2000

/-- ModbusInBlFlasher.DATA_BLOCK_LENGTH. -/
def DATA_BLOCK_LENGTH : Nat := 68

/-- The error raised while turning a fw file into registers or blocks. -/
inductive FwError where
  | incorrectFw
deriving DecidableEq

/-- minimalmodbus._bytestring_to_valuelist on the raw file bytes: each
consecutive byte pair becomes one u16 register, high byte first. -/
def _bytestring_to_valuelist : List Nat → List Nat
  | b1 :: b2 :: rest => (b1 * 256 + b2) :: _bytestring_to_valuelist rest
  | _ => []

/-- ModbusInBlFlasher._read_to_u16s: the file size must be even, otherwise
IncorrectFwError; then the bytes are converted to size/2 u16 registers. -/
def _read_to_u16s (bs : List Nat) : Except FwError (List Nat) :=
  if bs.length % 2 = 0 then Except.ok (_bytestring_to_valuelist bs)
  else Except.error FwError.incorrectFw

/-- The chunk split of ModbusInBlFlasher._send_data:
regs_row[i:i+chunk_size] for i in range(0, len(regs_row), chunk_size),
with chunk_size = DATA_BLOCK_LENGTH = 68. -/
def _send_data_chunks (regs_row : List Nat) : List (List Nat) :=
  (List.range ((regs_row.length + (DATA_BLOCK_LENGTH - 1)) / DATA_BLOCK_LENGTH)).map
    (fun k => (regs_row.drop (DATA_BLOCK_LENGTH * k)).take DATA_BLOCK_LENGTH)

/-- ModbusInBlFlasher.flash_in_bl, with every Modbus write succeeding:
parse the file into u16 registers (_read_to_u16s), split off the first
INFO_BLOCK_LENGTH registers as the INFO block, reject a wrong-size INFO
block (_send_info's length check), then emit the INFO write to 0x1000
followed by one write to 0x2000 per DATA chunk (_send_data). The second
component is the list of Modbus writes issued before returning or raising. -/
def flash_in_bl (bs : List Nat) : Except FwError Unit × List WriteReq :=
  match _read_to_u16s bs with
  | Except.error e => (Except.error e, [])
  | Except.ok fw_as_regs =>
    let info_block := fw_as_regs.take INFO_BLOCK_LENGTH
    let data_block := fw_as_regs.drop INFO_BLOCK_LENGTH
    if info_block.length = INFO_BLOCK_LENGTH then
      (Except.ok (),
        WriteReq.mk INFO_BLOCK_START info_block ::
          (_send_data_chunks data_block).map (fun c => WriteReq.mk DATA_BLOCK_START c))
    else (Except.error FwError.incorrectFw, [])

/-! ## ModbusFlasher DATA streaming (not in src/) -/

/-- Outcome of the DATA streaming phase. -/
inductive FlashOutcome where
  | ok
  | remainsInBootloader
deriving DecidableEq

/-- Modelled from the spec: the chunk loop of ModbusFlasher._send_data
(the ModbusFlasher class called by update_monitor.direct_flash is not in
src/; src/ only has its caller). Spec section 4.5: for each chunk, write it
to 0x2000; a chunk failure is not fatal unless the immediately following
chunk also fails; if a chunk fails and the next succeeds, clear the
pending-failure flag and continue. `writes` lists each chunk write's
success; the result is the pending-failure flag when the loop stops
(stopping early on the second consecutive failure, which per the spec is
fatal regardless of later chunks). -/
def send_data_loop : List Bool → Bool → Bool
  | [], pending => pending
  | w :: rest, pending =>
    if w then send_data_loop rest false
    else if pending then true
    else send_data_loop rest true

/-- Modelled from the spec: ModbusFlasher._send_data (not in src/). Spec
section 4.5: after the loop, if the pending-failure flag is still set AND
the device still answers the bootloader info-probe (info-write at 0x1000
returns Modbus exception 04, `blAnswersProbe`), declare failure with
"device remains in bootloader"; otherwise the stream ends without error. -/
def send_data (writes : List Bool) (blAnswersProbe : Bool) : FlashOutcome :=
  if send_data_loop writes false && blAnswersProbe then FlashOutcome.remainsInBootloader
  else FlashOutcome.ok

/-- Two immediately consecutive chunk failures somewhere in the stream
(the fatal pattern named by the spec). -/
def doubleFailure : List Bool → Bool
  | a :: b :: rest => (!a && !b) || doubleFailure (b :: rest)
  | _ => false

/-! ## JsonDB (src/wb_mcu_fw_updater/jsondb.py) -/

/-- CONFIG MAX_DB_RECORDS (src/wb_mcu_fw_updater/__init__.py line 35),
the MAXLEN of FixedLengthList. -/
def MAX_DB_RECORDS : Nat := 100

/-- One record of the identity store: the dict
with keys slaveid, port, fw_signature built by JsonDB.save. -/
structure DbRecord where
  slaveid : Nat
  port : String
  fw_signature : String
deriving DecidableEq

/-- FixedLengthList._keep_length: while the length exceeds MAXLEN, pop the
head (oldest first). -/
def FixedLengthList.keep_length : List DbRecord → List DbRecord
  | [] => []
  | x :: rest =>
    if MAX_DB_RECORDS < (x :: rest).length then FixedLengthList.keep_length rest
    else x :: rest

/-- FixedLengthList.append: list append followed by _keep_length. -/
def FixedLengthList.append (l : List DbRecord) (item : DbRecord) : List DbRecord :=
  FixedLengthList.keep_length (l ++ [item])

/-- The per-record condition of JsonDB._find:
device[slaveid] == slaveid and device[port] == port. -/
def JsonDB.sameKey (slaveid : Nat) (port : String) (d : DbRecord) : Bool :=
  d.slaveid == slaveid && d.port == port

/-- JsonDB._find: index of the first record matching (slaveid, port), or
None. -/
def JsonDB._find (slaveid : Nat) (port : String) : List DbRecord → Option Nat
  | [] => none
  | d :: rest =>
    if JsonDB.sameKey slaveid port d then some 0
    else (JsonDB._find slaveid port rest).map (fun i => i + 1)

/-- JsonDB.save: pop the existing record with the same (slaveid, port) if
any, then append the new record through the FixedLengthList. -/
def JsonDB.save (container : List DbRecord) (slaveid : Nat) (port : String)
    (fw_signature : String) : List DbRecord :=
  let pruned :=
    match JsonDB._find slaveid port container with
    | some i => container.eraseIdx i
    | none => container
  FixedLengthList.append pruned ⟨slaveid, port, fw_signature⟩

/-- JsonDB.get_fw_signature: search a reversed copy of the container with
_find and return that record's fw_signature, or None. -/
def JsonDB.get_fw_signature (container : List DbRecord) (slaveid : Nat)
    (port : String) : Option String :=
  let sequence := container.reverse
  match JsonDB._find slaveid port sequence with
  | some i => (sequence[i]?).map DbRecord.fw_signature
  | none => none

/-- The (slaveid, port) identity key of a record. -/
def DbRecord.keyOf (r : DbRecord) : Nat × String := (r.slaveid, r.port)

/-- Running a sequence of JsonDB.save calls (each op carries the saved
slaveid, port, fw_signature) from the given container. -/
def runSavesFrom (start : List DbRecord) (ops : List DbRecord) : List DbRecord :=
  ops.foldl (fun c r => JsonDB.save c r.slaveid r.port r.fw_signature) start

/-- Running a sequence of JsonDB.save calls from an empty store. -/
def runSaves (ops : List DbRecord) : List DbRecord :=
  runSavesFrom [] ops

/-- The signature carried by the most recent save for a given key, if any. -/
def lastSavedSig (ops : List DbRecord) (slaveid : Nat) (port : String) : Option String :=
  (ops.reverse.find? (JsonDB.sameKey slaveid port)).map DbRecord.fw_signature

/-- The JsonDB object: the in-memory container plus the on-disk JSON file
contents (none models a missing file). -/
structure JsonDBState where
  container : List DbRecord
  file : Option (List DbRecord)
deriving DecidableEq

/-- JsonDB.load: read the container from the file when it exists (the
FixedLengthList constructor applies _keep_length), start empty otherwise;
the file itself is only read. -/
def JsonDB.load (fs : Option (List DbRecord)) : JsonDBState :=
  match fs with
  | some rs => ⟨FixedLengthList.keep_length rs, fs⟩
  | none => ⟨[], fs⟩

/-- JsonDB.save as a transition of the whole object state: only the
container field is touched. -/
def JsonDB.saveState (st : JsonDBState) (slaveid : Nat) (port : String)
    (fw_signature : String) : JsonDBState :=
  ⟨JsonDB.save st.container slaveid port fw_signature, st.file⟩

/-- JsonDB.dump: json.dump the container into the file. -/
def JsonDB.dump (st : JsonDBState) : JsonDBState :=
  ⟨st.container, some st.container⟩

/-! ## update_monitor.is_reflash_necessary (src/wb_mcu_fw_updater/update_monitor.py 467-532) -/

/-- A parsed semantic_version.Version release triple. -/
structure SemVer where
  major : Nat
  minor : Nat
  patch : Nat
deriving DecidableEq

/-- The strict semantic-version order on release triples:
major, then minor, then patch. -/
def semverLt (x y : SemVer) : Bool :=
  decide (x.major < y.major) ||
    (decide (x.major = y.major) &&
      (decide (x.minor < y.minor) ||
        (decide (x.minor = y.minor) && decide (x.patch < y.patch))))

/-- update_monitor.SkipUpdateReason. -/
inductive SkipUpdateReason where
  | is_actual
  | gone_ahead
deriving DecidableEq

/-- update_monitor.ask_user: force_yes or the user's input starts with Y
(`answersYes`). -/
def ask_user (force_yes answersYes : Bool) : Bool :=
  force_yes || answersYes

/-- update_monitor.is_reflash_necessary: the version-comparison decision
chain, then — when the preliminary decision is to flash and the majors
differ — the returned do_flash becomes ask_user's answer. -/
def is_reflash_necessary (actual_version provided_version : SemVer)
    (force_reflash allow_downgrade answersYes : Bool) : Bool × Option SkipUpdateReason :=
  let pre : Bool × Option SkipUpdateReason :=
    if actual_version = provided_version then
      if force_reflash then (true, none) else (false, some SkipUpdateReason.is_actual)
    else if semverLt actual_version provided_version then (true, none)
    else if allow_downgrade then (true, none)
    else (false, some SkipUpdateReason.gone_ahead)
  if pre.1 && !(actual_version.major == provided_version.major) then
    (ask_user force_reflash answersYes, pre.2)
  else pre

/-! ## Theorems -/

/-- Loop characterization for the spec-modelled DATA phase: the
pending-failure flag survives the loop exactly when two immediately
consecutive chunks failed or the final chunk's write failed. -/
theorem send_data_loop_eq : ∀ l : List Bool,
    send_data_loop l false = (doubleFailure l || l.getLast? == some false)
  | [] => rfl
  | [a] => by cases a <;> rfl
  | a :: b :: rest => by
    have ih := send_data_loop_eq (b :: rest)
    cases a with
    | true =>
      have h1 : send_data_loop (true :: b :: rest) false = send_data_loop (b :: rest) false := rfl
      have h2 : doubleFailure (true :: b :: rest) = doubleFailure (b :: rest) := by
        simp [doubleFailure]
      rw [h1, ih, h2, List.getLast?_cons_cons]
    | false =>
      cases b with
      | true =>
        have h1 : send_data_loop (false :: true :: rest) false =
            send_data_loop (true :: rest) false := rfl
        have h2 : doubleFailure (false :: true :: rest) = doubleFailure (true :: rest) := by
          simp [doubleFailure]
        rw [h1, ih, h2, List.getLast?_cons_cons]
      | false =>
        have h1 : send_data_loop (false :: false :: rest) false = true := rfl
        have h2 : doubleFailure (false :: false :: rest) = true := by
          simp [doubleFailure]
        rw [h1, h2]
        rfl

/-- C3 (counterexample): a stream whose final chunk fails with no chunk
after it — so no failed chunk is immediately followed by another failure —
still ends with FlashingError (remains in bootloader) when the bootloader
answers the follow-up info-probe, contradicting the claim that the flash
fails only if the immediately following chunk also fails. -/
theorem C3_last_chunk_failure_fatal :
    doubleFailure [true, false] = false ∧
    send_data [true, false] true = FlashOutcome.remainsInBootloader :=
  ⟨rfl, rfl⟩

/-- C3 (amended): a failed chunk followed by a successful chunk is cleared
and harmless; the DATA phase ends with FlashingError (remains in
bootloader) exactly when the bootloader still answers the follow-up
info-probe and either some failed chunk is immediately followed by another
failed chunk or the final chunk's write failed (the pending-failure flag is
still set after the loop). -/
theorem C3_send_data_fault_tolerance (writes : List Bool) (blAnswersProbe : Bool) :
    send_data writes blAnswersProbe =
      (if (doubleFailure writes || writes.getLast? == some false) && blAnswersProbe then
        FlashOutcome.remainsInBootloader
      else FlashOutcome.ok) := by
  rw [send_data, send_data_loop_eq]

/-- C5: a firmware file of odd byte size is rejected with IncorrectFwError
during parsing, before any Modbus write is issued (empty write trace); a
file of even size passes the evenness check of _read_to_u16s. -/
theorem C5_odd_size_rejected (bs : List Nat) :
    (bs.length % 2 = 1 → flash_in_bl bs = (Except.error FwError.incorrectFw, [])) ∧
    (bs.length % 2 = 0 → _read_to_u16s bs = Except.ok (_bytestring_to_valuelist bs)) := by
  constructor
  · intro h
    have h0 : ¬bs.length % 2 = 0 := by omega
    simp [flash_in_bl, _read_to_u16s, h0]
  · intro h
    simp [_read_to_u16s, h]

/-- C5 witness: a 33-byte file is rejected with no write attempted; a
34-byte file passes the evenness check. -/
theorem C5_odd_size_rejected_witness :
    flash_in_bl (List.replicate 33 0) = (Except.error FwError.incorrectFw, []) ∧
    _read_to_u16s (List.replicate 34 0) =
      Except.ok (_bytestring_to_valuelist (List.replicate 34 0)) :=
  ⟨(C5_odd_size_rejected (List.replicate 33 0)).1 (by decide),
   (C5_odd_size_rejected (List.replicate 34 0)).2 (by decide)⟩

/-- C6: evaluating reboot_to_bootloader at the failing input where the
device still answers the post-sleep slave_id read (all three Modbus calls
succeed): the function returns normally instead of raising
TooOldDeviceError, because TooOldDeviceError is itself a
minimalmodbus.ModbusException (src/wb_modbus/bindings.py lines 12-15) and
the raise sits inside the try block guarded by
"except minimalmodbus.ModbusException: pass". The second conjunct records
the subclass fact; the third shows the claim's other half concretely: a
read refused with a Modbus exception also returns normally. -/
theorem C6_reboot_swallows_too_old_error :
    reboot_to_bootloader CallOutcome.ok CallOutcome.ok CallOutcome.ok = none ∧
    isModbusException MbExc.tooOldDevice = true ∧
    reboot_to_bootloader CallOutcome.ok CallOutcome.ok
      (CallOutcome.exc MbExc.noResponse) = none :=
  ⟨rfl, rfl, rfl⟩

/-- Bit-level identity of the WB-MAP serial-number formula:
(inputs0 mod 256) * 65536 + inputs1 equals
((inputs0 and 0xFF) shifted left 16) or-ed with inputs1, for inputs1 below
2 to the 16. -/
theorem map_sn_bitops (a b : Nat) (hb : b < 65536) :
    (a % 256) * 65536 + b = ((a &&& 255) <<< 16) ||| b := by
  have h1 : a &&& 255 = a % 256 := by
    have h := Nat.and_pow_two_sub_one_eq_mod a 8
    norm_num at h
    exact h
  have hpow : (2 : Nat) ^ 16 = 65536 := by norm_num
  have hb2 : b < 2 ^ 16 := by rw [hpow]; exact hb
  have h3 := Nat.mul_add_lt_is_or hb2 (a % 256)
  rw [h1, Nat.shiftLeft_eq, hpow]
  rw [Nat.mul_comm (a % 256) 65536]
  rw [← hpow]
  exact h3

/-- C9: for u16 input registers, a device whose device_signature matches
the WBMAP marker gets serial number ((inputs0 mod 256) * 65536) + inputs1,
which equals ((inputs0 and 0xFF) shifted 16) or inputs1; any other device
gets the u32 big-endian holding read at register 270. -/
theorem C9_get_serial_number (sig : List Char) (a b u : Nat)
    (ha : a < 65536) (hb : b < 65536) :
    (wbmapMatch sig = true →
      get_serial_number sig a b u = (a % 256) * 65536 + b ∧
      (a % 256) * 65536 + b = ((a &&& 255) <<< 16) ||| b) ∧
    (wbmapMatch sig = false → get_serial_number sig a b u = u) := by
  constructor
  · intro h
    exact ⟨by simp [get_serial_number, h], map_sn_bitops a b hb⟩
  · intro h
    simp [get_serial_number, h]

/-- C9 witness: a WBMAP12E device with inputs (300, 5) gets
(300 mod 256) * 65536 + 5 = 2883589; a WBMR6C device gets the u32 holding. -/
theorem C9_get_serial_number_witness :
    get_serial_number "WBMAP12E".toList 300 5 999 = 2883589 ∧
    get_serial_number "WBMR6C".toList 300 5 999 = 999 := by
  constructor
  · have h := (C9_get_serial_number "WBMAP12E".toList 300 5 999
      (by decide) (by decide)).1 (by decide)
    rw [h.1]
  · exact (C9_get_serial_number "WBMR6C".toList 300 5 999
      (by decide) (by decide)).2 (by decide)

/-- C10: a sequence of JsonDB.save calls modifies only the in-memory
container: the on-disk file stays exactly as load found it, and the file
changes only through an explicit dump, which writes the container. -/
theorem C10_save_never_touches_file (fs : Option (List DbRecord)) (ops : List DbRecord) :
    (ops.foldl (fun st r => JsonDB.saveState st r.slaveid r.port r.fw_signature)
      (JsonDB.load fs)).file = fs ∧
    (∀ st : JsonDBState, (JsonDB.dump st).file = some st.container) := by
  constructor
  · have h : ∀ (l : List DbRecord) (st : JsonDBState),
        (l.foldl (fun st r => JsonDB.saveState st r.slaveid r.port r.fw_signature) st).file
          = st.file := by
      intro l
      induction l with
      | nil => intro st; rfl
      | cons r rest ih =>
        intro st
        rw [List.foldl_cons]
        exact ih _
    rw [h]
    cases fs <;> rfl
  · intro st
    rfl

/-- Strict semver order is irreflexive: a version is never below itself. -/
theorem semverLt_ne {x y : SemVer} (h : semverLt x y = true) : x ≠ y := by
  intro he
  subst he
  simp only [semverLt, decide_eq_true_eq, Bool.or_eq_true, Bool.and_eq_true] at h
  omega

/-- Strict semver order is asymmetric. -/
theorem semverLt_asymm {x y : SemVer} (h : semverLt x y = true) : semverLt y x = false := by
  cases hyx : semverLt y x with
  | false => rfl
  | true =>
    exfalso
    simp only [semverLt, decide_eq_true_eq, Bool.or_eq_true, Bool.and_eq_true] at h hyx
    omega

/-- C1: the update decision table of is_reflash_necessary. Equal versions
flash only under force (reason none) and otherwise skip as is_actual;
provided above actual flashes with reason none; provided below actual
flashes only with allow_downgrade and otherwise skips as gone_ahead; and
whenever the preliminary decision is to flash across a major-version
change, the returned do_flash is ask_user's answer, which force bypasses. -/
theorem C1_is_reflash_necessary (a p : SemVer) (force allow ans : Bool) :
    (a = p → is_reflash_necessary a p force allow ans =
      (if force then (true, none) else (false, some SkipUpdateReason.is_actual))) ∧
    (semverLt a p = true → a.major = p.major →
      is_reflash_necessary a p force allow ans = (true, none)) ∧
    (semverLt p a = true → allow = true → a.major = p.major →
      is_reflash_necessary a p force allow ans = (true, none)) ∧
    (semverLt p a = true → allow = false →
      is_reflash_necessary a p force allow ans = (false, some SkipUpdateReason.gone_ahead)) ∧
    (semverLt a p = true → a.major ≠ p.major →
      is_reflash_necessary a p force allow ans = (ask_user force ans, none)) ∧
    (semverLt p a = true → allow = true → a.major ≠ p.major →
      is_reflash_necessary a p force allow ans = (ask_user force ans, none)) ∧
    (force = true → ask_user force ans = true) := by
  refine ⟨?_, ?_, ?_, ?_, ?_, ?_, ?_⟩
  · intro h
    subst h
    cases force <;> simp [is_reflash_necessary]
  · intro h hmaj
    have hne := semverLt_ne h
    simp [is_reflash_necessary, hne, h, hmaj]
  · intro h hallow hmaj
    have hne : a ≠ p := fun he => semverLt_ne h he.symm
    have hlt := semverLt_asymm h
    simp [is_reflash_necessary, hne, hlt, hallow, hmaj]
  · intro h hallow
    have hne : a ≠ p := fun he => semverLt_ne h he.symm
    have hlt := semverLt_asymm h
    simp [is_reflash_necessary, hne, hlt, hallow]
  · intro h hmaj
    have hne := semverLt_ne h
    simp [is_reflash_necessary, hne, h, hmaj]
  · intro h hallow hmaj
    have hne : a ≠ p := fun he => semverLt_ne h he.symm
    have hlt := semverLt_asymm h
    simp [is_reflash_necessary, hne, hlt, hallow, hmaj]
  · intro h
    subst h
    simp [ask_user]

/-- C1 witness: 1.2.4 to 1.2.3 without allow_downgrade skips as gone_ahead;
1.9.9 to 2.0.0 with force flashes (the major-bump question is bypassed). -/
theorem C1_is_reflash_necessary_witness :
    is_reflash_necessary ⟨1, 2, 4⟩ ⟨1, 2, 3⟩ false false true =
      (false, some SkipUpdateReason.gone_ahead) ∧
    is_reflash_necessary ⟨1, 9, 9⟩ ⟨2, 0, 0⟩ true false false = (true, none) := by
  constructor
  · exact (C1_is_reflash_necessary ⟨1, 2, 4⟩ ⟨1, 2, 3⟩ false false true).2.2.2.1
      (by decide) rfl
  · have h := (C1_is_reflash_necessary ⟨1, 9, 9⟩ ⟨2, 0, 0⟩ true false false).2.2.2.2.1
      (by decide) (by decide)
    rw [h]
    rfl

/-- Unfolding of _has_bootloader_answered in terms of the probe write's
outcome. -/
theorem hba_of_probe (st : PortState) (bd : Nat)
    (probeWrite : PortState → WriteReq → CallOutcome) (r : CallOutcome)
    (hr : probeWrite ⟨⟨bd, 'N', 2⟩, st.timeout + 1⟩ ⟨0x1000, List.replicate 16 0⟩ = r) :
    _has_bootloader_answered st bd probeWrite =
      (match r with
       | CallOutcome.exc MbExc.slaveReported => (Except.ok PyRet.pyTrue, st)
       | CallOutcome.exc e =>
         if isModbusException e then (Except.ok PyRet.pyFalse, st) else (Except.error e, st)
       | CallOutcome.ok => (Except.ok PyRet.pyNone, st)) := by
  cases r with
  | ok =>
    simp only [_has_bootloader_answered]
    rw [hr]
  | exc e =>
    cases e <;> simp only [_has_bootloader_answered] <;> rw [hr]

/-- C7: is_in_bootloader answers False when the normal slave_id read
succeeds; otherwise it probes at 9600-N-2 with timeout extended by 1.0,
writing 16 zero u16 registers to 0x1000, answers True exactly when that
write comes back as SlaveReportedException (Modbus exception 04), a falsy
value on any other Modbus failure and on success of the write, and on
every path the port settings and response timeout in effect before the
probe are restored. -/
theorem C7_is_in_bootloader (st : PortState)
    (readSlaveId : PortState → CallOutcome)
    (probeWrite : PortState → WriteReq → CallOutcome) :
    (readSlaveId st = CallOutcome.ok →
      is_in_bootloader st 9600 readSlaveId probeWrite = (Except.ok PyRet.pyFalse, st)) ∧
    (∀ e, readSlaveId st = CallOutcome.exc e → isModbusException e = true →
      ((is_in_bootloader st 9600 readSlaveId probeWrite).1 = Except.ok PyRet.pyTrue ↔
        probeWrite ⟨⟨9600, 'N', 2⟩, st.timeout + 1⟩ ⟨0x1000, List.replicate 16 0⟩ =
          CallOutcome.exc MbExc.slaveReported) ∧
      (∀ e2, probeWrite ⟨⟨9600, 'N', 2⟩, st.timeout + 1⟩ ⟨0x1000, List.replicate 16 0⟩ =
            CallOutcome.exc e2 → isModbusException e2 = true →
          e2 ≠ MbExc.slaveReported →
          (is_in_bootloader st 9600 readSlaveId probeWrite).1 = Except.ok PyRet.pyFalse)) ∧
    ((is_in_bootloader st 9600 readSlaveId probeWrite).2 = st) := by
  refine ⟨?_, ?_, ?_⟩
  · intro h
    simp [is_in_bootloader, h]
  · intro e hread hmod
    have hrw : is_in_bootloader st 9600 readSlaveId probeWrite =
        _has_bootloader_answered st 9600 probeWrite := by
      simp [is_in_bootloader, hread, hmod]
    constructor
    · cases hpw : probeWrite ⟨⟨9600, 'N', 2⟩, st.timeout + 1⟩ ⟨0x1000, List.replicate 16 0⟩ with
      | ok =>
        rw [hrw, hba_of_probe st 9600 probeWrite _ hpw]
        simp [hpw]
      | exc e2 =>
        cases e2 <;> rw [hrw, hba_of_probe st 9600 probeWrite _ hpw] <;>
          simp [hpw, isModbusException]
    · intro e2 hpw hmod2 hne
      rw [hrw, hba_of_probe st 9600 probeWrite _ hpw]
      cases e2 <;> simp_all [isModbusException]
  · cases hread : readSlaveId st with
    | ok => simp [is_in_bootloader, hread]
    | exc e =>
      cases he : isModbusException e with
      | false => simp [is_in_bootloader, hread, he]
      | true =>
        have hrw : is_in_bootloader st 9600 readSlaveId probeWrite =
            _has_bootloader_answered st 9600 probeWrite := by
          simp [is_in_bootloader, hread, he]
        cases hpw : probeWrite ⟨⟨9600, 'N', 2⟩, st.timeout + 1⟩ ⟨0x1000, List.replicate 16 0⟩ with
        | ok =>
          rw [hrw, hba_of_probe st 9600 probeWrite _ hpw]
        | exc e2 =>
          cases e2 <;> rw [hrw, hba_of_probe st 9600 probeWrite _ hpw] <;>
            simp [isModbusException]

/-- C7 witness: from settings 115200-E-1 with timeout 2, a device that
refuses the slave_id read and answers the zero-register probe with Modbus
exception 04 is reported in bootloader, with the original settings and
timeout back in place. -/
theorem C7_is_in_bootloader_witness :
    is_in_bootloader ⟨⟨115200, 'E', 1⟩, 2⟩ 9600
      (fun _ => CallOutcome.exc MbExc.noResponse)
      (fun _ _ => CallOutcome.exc MbExc.slaveReported) =
      (Except.ok PyRet.pyTrue, ⟨⟨115200, 'E', 1⟩, 2⟩) := by
  have h := C7_is_in_bootloader ⟨⟨115200, 'E', 1⟩, 2⟩
    (fun _ => CallOutcome.exc MbExc.noResponse)
    (fun _ _ => CallOutcome.exc MbExc.slaveReported)
  have h1 := (h.2.1 MbExc.noResponse rfl rfl).1.mpr rfl
  have h2 := h.2.2
  exact Prod.ext h1 h2

/-- The u16 conversion yields one register per byte pair. -/
theorem length_bytestring : ∀ bs : List Nat,
    (_bytestring_to_valuelist bs).length = bs.length / 2
  | [] => rfl
  | [_] => by simp [_bytestring_to_valuelist]
  | _ :: _ :: rest => by
    simp only [_bytestring_to_valuelist, List.length_cons, length_bytestring rest]
    omega

/-- Shape of the DATA chunk split: ceil(length/68) chunks, chunk k being
regs_row[68k : 68k + 68]. -/
theorem send_data_chunks_spec (l : List Nat) :
    (_send_data_chunks l).length = (l.length + 67) / 68 ∧
    (∀ i, i < (l.length + 67) / 68 →
      (_send_data_chunks l)[i]? = some ((l.drop (68 * i)).take 68)) := by
  constructor
  · simp [_send_data_chunks, DATA_BLOCK_LENGTH]
  · intro i hi
    simp [_send_data_chunks, DATA_BLOCK_LENGTH, List.getElem?_range, hi]

set_option maxRecDepth 8192 in
/-- C4: an even WBFW of at least 32 bytes parses into exactly 16 INFO u16
registers written to 0x1000, followed by ceil((L/2 - 16)/68) DATA writes to
0x2000, each of 68 u16 values except a possibly shorter (but nonempty) last
chunk; in particular a 344-byte file yields DATA chunks of sizes
[68, 68, 20]. -/
theorem C4_wbfw_chunking (bs : List Nat) (heven : bs.length % 2 = 0)
    (hmin : 32 ≤ bs.length) :
    (∃ ws, flash_in_bl bs =
        (Except.ok (),
          WriteReq.mk INFO_BLOCK_START ((_bytestring_to_valuelist bs).take 16) :: ws) ∧
      ((_bytestring_to_valuelist bs).take 16).length = 16 ∧
      ws.length = (bs.length / 2 - 16 + 67) / 68 ∧
      (∀ i w, ws[i]? = some w → w.addr = DATA_BLOCK_START ∧
        (i + 1 < ws.length → w.values.length = 68) ∧
        (i + 1 = ws.length → 0 < w.values.length ∧ w.values.length ≤ 68))) ∧
    (_send_data_chunks ((_bytestring_to_valuelist (List.replicate 344 0)).drop 16)).map
      (fun c => c.length) = [68, 68, 20] := by
  constructor
  · have hlen : (_bytestring_to_valuelist bs).length = bs.length / 2 := length_bytestring bs
    have h16 : 16 ≤ (_bytestring_to_valuelist bs).length := by omega
    have hinfo : ((_bytestring_to_valuelist bs).take 16).length = 16 := by
      rw [List.length_take]
      omega
    have hread : _read_to_u16s bs = Except.ok (_bytestring_to_valuelist bs) := by
      simp [_read_to_u16s, heven]
    have hd : ((_bytestring_to_valuelist bs).drop 16).length = bs.length / 2 - 16 := by
      rw [List.length_drop]
      omega
    have hchunks := send_data_chunks_spec ((_bytestring_to_valuelist bs).drop 16)
    refine ⟨(_send_data_chunks ((_bytestring_to_valuelist bs).drop 16)).map
      (fun c => WriteReq.mk DATA_BLOCK_START c), ?_, hinfo, ?_, ?_⟩
    · simp only [flash_in_bl, hread]
      rw [if_pos (show ((_bytestring_to_valuelist bs).take INFO_BLOCK_LENGTH).length
        = INFO_BLOCK_LENGTH from hinfo)]
      rfl
    · rw [List.length_map, hchunks.1, hd]
    · intro i w hw
      rw [List.getElem?_map] at hw
      by_cases hi : i < (((_bytestring_to_valuelist bs).drop 16).length + 67) / 68
      · rw [hchunks.2 i hi] at hw
        simp only [Option.map_some', Option.some.injEq] at hw
        subst hw
        have hlenws : ((_send_data_chunks ((_bytestring_to_valuelist bs).drop 16)).map
            (fun c => WriteReq.mk DATA_BLOCK_START c)).length =
            (bs.length / 2 - 16 + 67) / 68 := by
          rw [List.length_map, hchunks.1, hd]
        rw [hd] at hi
        refine ⟨rfl, ?_, ?_⟩
        · intro hlt
          rw [hlenws] at hlt
          simp only [List.length_take, List.length_drop, hd]
          omega
        · intro heq
          rw [hlenws] at heq
          simp only [List.length_take, List.length_drop, hd]
          omega
      · exfalso
        have hnone : (_send_data_chunks ((_bytestring_to_valuelist bs).drop 16))[i]? = none := by
          apply List.getElem?_eq_none
          rw [hchunks.1]
          omega
        rw [hnone] at hw
        simp at hw
  · rfl

set_option maxRecDepth 8192 in
/-- C4 witness: the 344-byte file (32 INFO bytes + 136 + 136 + 40 DATA
bytes) produces DATA chunks of sizes [68, 68, 20]. -/
theorem C4_wbfw_chunking_witness :
    (_send_data_chunks ((_bytestring_to_valuelist (List.replicate 344 0)).drop 16)).map
      (fun c => c.length) = [68, 68, 20] :=
  (C4_wbfw_chunking (List.replicate 344 0) (by decide) (by decide)).2

/-- Unrolling of the find_uart_settings loop: the settings probed are, in
order, the initially applied ones and then every loop-applied candidate but
the last (each candidate is probed one iteration after it is applied, so
the final candidate is applied but never probed); the first success is
returned with the initial settings restored to the port; exhaustion leaves
the last candidate applied. -/
theorem find_uart_settings_go_spec (probe : UartSettings → Bool) (initial : UartSettings) :
    ∀ (cs : List UartSettings) (current : UartSettings),
      find_uart_settings_go probe initial current cs =
        match ((current :: cs).dropLast).find? probe with
        | some s => (some s, initial)
        | none => (none, cs.getLastD current)
  | [], current => by
    simp [find_uart_settings_go]
  | c :: rest, current => by
    have ih := find_uart_settings_go_spec probe initial rest c
    cases hp : probe current with
    | true =>
      have hgo : find_uart_settings_go probe initial current (c :: rest) =
          (some current, initial) := by
        simp [find_uart_settings_go, hp]
      rw [hgo, List.dropLast_cons₂, List.find?_cons_of_pos _ hp]
    | false =>
      have hgo : find_uart_settings_go probe initial current (c :: rest) =
          find_uart_settings_go probe initial c rest := by
        simp [find_uart_settings_go, hp]
      rw [hgo, ih, List.dropLast_cons₂, List.find?_cons_of_neg _ (by simp [hp]),
        List.getLastD_cons]

/-- C8 (counterexample): with a probe that succeeds under every setting and
the instrument initially at 115200-O-1, the first product combination
(9600-N-2) succeeds under the claim's reading, yet the function returns the
initial settings 115200-O-1 (the first probe runs before any product
element is applied) and restores them to the port rather than leaving the
found combination applied; moreover a probe succeeding only at the last
product combination 57600-E-1 exhausts the search (that combination is
applied but never probed) instead of returning it. -/
theorem C8_counterexample :
    uartProduct.find? (fun _ => true) = some ⟨9600, 'N', 2⟩ ∧
    find_uart_settings ⟨115200, 'O', 1⟩ (fun _ => true) =
      (some ⟨115200, 'O', 1⟩, ⟨115200, 'O', 1⟩) ∧
    (⟨115200, 'O', 1⟩ : UartSettings) ≠ ⟨9600, 'N', 2⟩ ∧
    find_uart_settings ⟨9600, 'N', 2⟩ (fun s => s == ⟨57600, 'E', 1⟩) =
      (none, ⟨57600, 'E', 1⟩) := by
  refine ⟨rfl, rfl, by decide, by decide⟩

/-- C8 (amended): find_uart_settings probes, in order, the settings already
applied on the instrument and then the product combinations
(9600, 115200, rest ascending) x (N, O, E) x (2, 1) except the last one
(each candidate is applied on the iteration after the failure that precedes
it, so 57600-E-1 is applied but never probed); the settings under which the
first successful probe ran are returned while the pre-call settings are
restored to the port; if all 48 probes fail it raises
UARTSettingsNotFoundError, leaving 57600-E-1 applied. -/
theorem C8_find_uart_settings_behavior (initial : UartSettings)
    (probe : UartSettings → Bool) :
    find_uart_settings initial probe =
      match (initial :: uartProduct.dropLast).find? probe with
      | some s => (some s, initial)
      | none => (none, ⟨57600, 'E', 1⟩) := by
  have h := find_uart_settings_go_spec probe initial uartProduct initial
  have h1 : (initial :: uartProduct).dropLast = initial :: uartProduct.dropLast := rfl
  have h2 : uartProduct.getLastD initial = ⟨57600, 'E', 1⟩ := rfl
  rw [find_uart_settings, h, h1, h2]

/-- The record predicate of JsonDB._find, as an identity-key equation. -/
theorem sameKey_iff (s : Nat) (p : String) (d : DbRecord) :
    JsonDB.sameKey s p d = true ↔ d.keyOf = (s, p) := by
  simp [JsonDB.sameKey, DbRecord.keyOf, Prod.ext_iff]

/-- Popping the record at the index JsonDB._find returns equals erasing the
first record with the matching key. -/
theorem find_eraseIdx_eq_eraseP (s : Nat) (p : String) : ∀ l : List DbRecord,
    (match JsonDB._find s p l with
     | some i => l.eraseIdx i
     | none => l) = l.eraseP (JsonDB.sameKey s p)
  | [] => rfl
  | d :: rest => by
    cases hm : JsonDB.sameKey s p d with
    | true =>
      have hfind : JsonDB._find s p (d :: rest) = some 0 := by
        simp [JsonDB._find, hm]
      rw [hfind, List.eraseP_cons_of_pos hm]
      rfl
    | false =>
      have ih := find_eraseIdx_eq_eraseP s p rest
      rw [List.eraseP_cons_of_neg (by simp [hm])]
      cases hf : JsonDB._find s p rest with
      | none =>
        have hfind : JsonDB._find s p (d :: rest) = none := by
          simp [JsonDB._find, hm, hf]
        rw [hfind]
        rw [hf] at ih
        exact congrArg (List.cons d) ih
      | some i =>
        have hfind : JsonDB._find s p (d :: rest) = some (i + 1) := by
          simp [JsonDB._find, hm, hf]
        rw [hfind]
        rw [hf] at ih
        show d :: rest.eraseIdx i = d :: rest.eraseP (JsonDB.sameKey s p)
        exact congrArg (List.cons d) ih

/-- JsonDB.save in closed form: erase the old record with the same key,
append the new one, bound the length through the FixedLengthList. -/
theorem save_eq (l : List DbRecord) (s : Nat) (p f : String) :
    JsonDB.save l s p f =
      FixedLengthList.keep_length
        ((l.eraseP (JsonDB.sameKey s p)) ++ [⟨s, p, f⟩]) := by
  have h := find_eraseIdx_eq_eraseP s p l
  simp only [JsonDB.save, FixedLengthList.append]
  rw [h]

/-- FixedLengthList._keep_length only drops elements from the head. -/
theorem keep_length_sublist : ∀ l : List DbRecord,
    (FixedLengthList.keep_length l).Sublist l
  | [] => List.Sublist.refl _
  | x :: rest => by
    by_cases h : MAX_DB_RECORDS < (x :: rest).length
    · rw [FixedLengthList.keep_length, if_pos h]
      exact (keep_length_sublist rest).trans (List.sublist_cons_self x rest)
    · rw [FixedLengthList.keep_length, if_neg h]

/-- FixedLengthList._keep_length enforces the MAX_DB_RECORDS bound. -/
theorem keep_length_le : ∀ l : List DbRecord,
    (FixedLengthList.keep_length l).length ≤ MAX_DB_RECORDS
  | [] => by simp [FixedLengthList.keep_length, MAX_DB_RECORDS]
  | x :: rest => by
    by_cases h : MAX_DB_RECORDS < (x :: rest).length
    · rw [FixedLengthList.keep_length, if_pos h]
      exact keep_length_le rest
    · rw [FixedLengthList.keep_length, if_neg h]
      omega

/-- After erasing the key of an incoming record from a container with
pairwise-distinct keys, no surviving record carries that key. -/
theorem keyOf_ne_of_mem_eraseP (s : Nat) (p : String) :
    ∀ l : List DbRecord, (l.map DbRecord.keyOf).Nodup →
      ∀ r ∈ l.eraseP (JsonDB.sameKey s p), r.keyOf ≠ (s, p)
  | [], _, r, hr => by simp at hr
  | d :: rest, hnd, r, hr => by
    rw [List.map_cons, List.nodup_cons] at hnd
    cases hm : JsonDB.sameKey s p d with
    | true =>
      rw [List.eraseP_cons_of_pos hm] at hr
      intro hk
      apply hnd.1
      have hmem : r.keyOf ∈ rest.map DbRecord.keyOf := List.mem_map_of_mem _ hr
      rw [hk] at hmem
      rw [(sameKey_iff s p d).mp hm]
      exact hmem
    | false =>
      rw [List.eraseP_cons_of_neg (by simp [hm])] at hr
      cases hr with
      | head =>
        intro hk
        have hkk : JsonDB.sameKey s p d = true := (sameKey_iff s p d).mpr hk
        rw [hkk] at hm
        exact Bool.noConfusion hm
      | tail _ hr2 => exact keyOf_ne_of_mem_eraseP s p rest hnd.2 r hr2

/-- JsonDB.save keeps the identity keys pairwise distinct. -/
theorem save_nodup {l : List DbRecord} (h : (l.map DbRecord.keyOf).Nodup)
    (s : Nat) (p f : String) :
    ((JsonDB.save l s p f).map DbRecord.keyOf).Nodup := by
  rw [save_eq]
  apply List.Nodup.sublist (List.Sublist.map _ (keep_length_sublist _))
  rw [List.map_append]
  apply List.Nodup.append
  · exact List.Nodup.sublist (List.Sublist.map _ (List.eraseP_sublist _)) h
  · simp
  · intro k hk1 hk2
    rw [List.mem_map] at hk1
    obtain ⟨r, hrmem, hrk⟩ := hk1
    have hne := keyOf_ne_of_mem_eraseP s p l h r hrmem
    rw [List.map_singleton, List.mem_singleton] at hk2
    apply hne
    rw [hrk, hk2]
    rfl

/-- The index-based lookup of JsonDB.get_fw_signature equals a find?. -/
theorem find_index_map_eq_find? (s : Nat) (p : String) : ∀ l : List DbRecord,
    (match JsonDB._find s p l with
     | some i => (l[i]?).map DbRecord.fw_signature
     | none => none) = (l.find? (JsonDB.sameKey s p)).map DbRecord.fw_signature
  | [] => rfl
  | d :: rest => by
    cases hm : JsonDB.sameKey s p d with
    | true =>
      have hfind : JsonDB._find s p (d :: rest) = some 0 := by
        simp [JsonDB._find, hm]
      rw [hfind, List.find?_cons_of_pos _ hm]
      show Option.map DbRecord.fw_signature ((d :: rest)[0]?) =
        Option.map DbRecord.fw_signature (some d)
      rw [List.getElem?_cons_zero]
    | false =>
      have ih := find_index_map_eq_find? s p rest
      rw [List.find?_cons_of_neg _ (by simp [hm])]
      cases hf : JsonDB._find s p rest with
      | none =>
        have hfind : JsonDB._find s p (d :: rest) = none := by
          simp [JsonDB._find, hm, hf]
        rw [hfind]
        rw [hf] at ih
        exact ih
      | some i =>
        have hfind : JsonDB._find s p (d :: rest) = some (i + 1) := by
          simp [JsonDB._find, hm, hf]
        rw [hfind]
        rw [hf] at ih
        show Option.map DbRecord.fw_signature ((d :: rest)[i + 1]?) =
          Option.map DbRecord.fw_signature (List.find? (JsonDB.sameKey s p) rest)
        rw [List.getElem?_cons_succ]
        exact ih

/-- JsonDB.get_fw_signature searches the reversed container: it is find?
over the reverse, projected to the signature. -/
theorem get_fw_signature_eq_find? (l : List DbRecord) (s : Nat) (p : String) :
    JsonDB.get_fw_signature l s p =
      (l.reverse.find? (JsonDB.sameKey s p)).map DbRecord.fw_signature :=
  find_index_map_eq_find? s p l.reverse

/-- Core induction for the identity store: after any save sequence the keys
are pairwise distinct and every record carries the signature of the most
recent save for its key. -/
theorem runSaves_invariant (ops : List DbRecord) :
    ((runSaves ops).map DbRecord.keyOf).Nodup ∧
    (∀ r ∈ runSaves ops, lastSavedSig ops r.slaveid r.port = some r.fw_signature) := by
  induction ops using List.reverseRecOn with
  | nil =>
    constructor
    · simp [runSaves, runSavesFrom]
    · intro r hr
      simp [runSaves, runSavesFrom] at hr
  | append_singleton ops o ih =>
    have hrun : runSaves (ops ++ [o]) =
        JsonDB.save (runSaves ops) o.slaveid o.port o.fw_signature := by
      simp [runSaves, runSavesFrom]
    have hrev : (ops ++ [o]).reverse = o :: ops.reverse := by simp
    have hlastT : ∀ s p, JsonDB.sameKey s p o = true →
        lastSavedSig (ops ++ [o]) s p = some o.fw_signature := by
      intro s p hm
      simp only [lastSavedSig]
      rw [hrev, List.find?_cons_of_pos _ hm]
      rfl
    have hlastF : ∀ s p, JsonDB.sameKey s p o = false →
        lastSavedSig (ops ++ [o]) s p = lastSavedSig ops s p := by
      intro s p hm
      simp only [lastSavedSig]
      rw [hrev, List.find?_cons_of_neg _ (by simp [hm])]
    constructor
    · rw [hrun]
      exact save_nodup ih.1 _ _ _
    · intro r hr
      rw [hrun, save_eq] at hr
      have hr2 := (keep_length_sublist _).subset hr
      rw [List.mem_append] at hr2
      cases hr2 with
      | inl hold =>
        have hne := keyOf_ne_of_mem_eraseP o.slaveid o.port (runSaves ops) ih.1 r hold
        have hmem : r ∈ runSaves ops := (List.eraseP_sublist _).subset hold
        have hm : JsonDB.sameKey r.slaveid r.port o = false := by
          rw [Bool.eq_false_iff]
          intro hsk
          have ho := (sameKey_iff r.slaveid r.port o).mp hsk
          apply hne
          exact (rfl : r.keyOf = (r.slaveid, r.port)).trans
            (ho.symm.trans (rfl : o.keyOf = (o.slaveid, o.port)))
        rw [hlastF r.slaveid r.port hm]
        exact ih.2 r hmem
      | inr hnew =>
        have he : r = ⟨o.slaveid, o.port, o.fw_signature⟩ := List.mem_singleton.mp hnew
        subst he
        exact hlastT o.slaveid o.port (by simp [JsonDB.sameKey])

/-- C2: from an empty store, any sequence of JsonDB.save calls keeps at
most MAX_DB_RECORDS records, each (slaveid, port) key at most once, every
surviving record carrying the signature of its most recent save; and
get_fw_signature answers None exactly when no record matches, and the most
recently saved signature of the key otherwise. -/
theorem C2_jsondb_store_invariants (ops : List DbRecord) :
    (runSaves ops).length ≤ MAX_DB_RECORDS ∧
    ((runSaves ops).map DbRecord.keyOf).Nodup ∧
    (∀ r ∈ runSaves ops, lastSavedSig ops r.slaveid r.port = some r.fw_signature) ∧
    (∀ s p, JsonDB.get_fw_signature (runSaves ops) s p = none ↔
      ∀ r ∈ runSaves ops, JsonDB.sameKey s p r = false) ∧
    (∀ s p f, JsonDB.get_fw_signature (runSaves ops) s p = some f →
      lastSavedSig ops s p = some f) := by
  have hinv := runSaves_invariant ops
  refine ⟨?_, hinv.1, hinv.2, ?_, ?_⟩
  · cases hops : ops.reverse with
    | nil =>
      have : ops = [] := by
        have := congrArg List.reverse hops
        simpa using this
      subst this
      simp [runSaves, runSavesFrom, MAX_DB_RECORDS]
    | cons o rest =>
      have : ops = rest.reverse ++ [o] := by
        have := congrArg List.reverse hops
        simpa using this
      subst this
      have hrun : runSaves (rest.reverse ++ [o]) =
          JsonDB.save (runSaves rest.reverse) o.slaveid o.port o.fw_signature := by
        simp [runSaves, runSavesFrom]
      rw [hrun, save_eq]
      exact keep_length_le _
  · intro s p
    rw [get_fw_signature_eq_find?]
    constructor
    · intro h r hr
      rw [Option.map_eq_none'] at h
      rw [List.find?_eq_none] at h
      have := h r (List.mem_reverse.mpr hr)
      simpa using this
    · intro h
      rw [Option.map_eq_none', List.find?_eq_none]
      intro r hr
      simp [h r (List.mem_reverse.mp hr)]
  · intro s p f hf
    rw [get_fw_signature_eq_find?] at hf
    cases hfr : (runSaves ops).reverse.find? (JsonDB.sameKey s p) with
    | none =>
      rw [hfr] at hf
      simp at hf
    | some r =>
      rw [hfr] at hf
      simp only [Option.map_some', Option.some.injEq] at hf
      have hmem : r ∈ runSaves ops := List.mem_reverse.mp (List.mem_of_find?_eq_some hfr)
      have hkey := List.find?_some hfr
      have hs : r.slaveid = s ∧ r.port = p := by
        simpa [JsonDB.sameKey] using hkey
      have h3 := (runSaves_invariant ops).2 r hmem
      rw [← hs.1, ← hs.2, h3, hf]

/-- C2 witness: saving (1, A, S1), (2, A, S2), (1, A, S1b) in order leaves
the freshest signature S1b for key (1, A), S2 for (2, A), and no record
for (4, A). -/
theorem C2_jsondb_store_invariants_witness :
    lastSavedSig [⟨1, "A", "S1"⟩, ⟨2, "A", "S2"⟩, ⟨1, "A", "S1b"⟩] 1 "A" = some "S1b" ∧
    JsonDB.get_fw_signature
      (runSaves [⟨1, "A", "S1"⟩, ⟨2, "A", "S2"⟩, ⟨1, "A", "S1b"⟩]) 4 "A" = none := by
  constructor
  · exact (C2_jsondb_store_invariants
      [⟨1, "A", "S1"⟩, ⟨2, "A", "S2"⟩, ⟨1, "A", "S1b"⟩]).2.2.2.2 1 "A" "S1b" (by decide)
  · exact ((C2_jsondb_store_invariants
      [⟨1, "A", "S1"⟩, ⟨2, "A", "S2"⟩, ⟨1, "A", "S1b"⟩]).2.2.2.1 4 "A").mpr (by decide)

end WbMcuFwUpdater
